import Mathlib

/-!
Shallow embedding of `heap_useNewlib_NXP.c` (FreeRTOS_helpers): the
newlib/FreeRTOS bridge allocator.  Addresses and the `int` increment are
modelled as `Int` (pointer arithmetic past the object is undefined behaviour
in C, so idealised integers are the faithful model of the defined
executions); the `size_t` accounting counter wraps modulo `2 ^ 32`
(ARM Cortex-M target).  The FreeRTOS scheduler-suspension primitives
`vTaskSuspendAll` / `xTaskResumeAll` are modelled by a nesting counter, and
`configASSERT` failure (which disables interrupts and loops forever) as well
as the `configHARD_STOP_ON_MALLOC_FAILURE` busy loop are modelled by the
`Option.none` outcome: the call never returns.
-/

namespace HeapNewlib

/-- newlib's `ENOMEM` value, stored into `pReent->_errno` on failure. -/
def ENOMEM : Int := 12

/-- The build-time out-of-memory policy selected by the preprocessor in
`_sbrk_r`: `configUSE_MALLOC_FAILED_HOOK == 1`, a defined
`configHARD_STOP_ON_MALLOC_FAILURE`, or the default `#else` branch. -/
inductive OomPolicy where
  | callFailureHook
  | hardStop
  | defaultPolicy
deriving DecidableEq, Repr

/-- The mutable globals touched by `_sbrk_r`, plus the scheduler-suspension
nesting depth, the calling task's reentrancy-structure errno
(`pReent->_errno`, `none` when never written), and the number of
`vApplicationMallocFailedHook` invocations. -/
structure SbrkState where
  currentHeapEnd : Int
  heapBytesRemaining : Int
  totalBytesProvidedBySBRK : Int
  suspendCount : Nat
  errno : Option Int
  hookCalls : Nat
deriving DecidableEq, Repr

/-- Initial state: `currentHeapEnd = &__HeapBase` and
`heapBytesRemaining = (int)&HEAP_SIZE`, which the source comments identify
as `(&__HeapLimit) - (&__HeapBase)`. -/
def initState (base limit : Int) : SbrkState :=
  { currentHeapEnd := base
    heapBytesRemaining := limit - base
    totalBytesProvidedBySBRK := 0
    suspendCount := 0
    errno := none
    hookCalls := 0 }

/-- `_sbrk_r` from the source.  `limit` is `&__HeapLimit`.  The result is
`some (returnValue, newState)`, where the sentinel return value `(char *)-1`
is `-1`; `none` means the call never returns (the
`configHARD_STOP_ON_MALLOC_FAILURE` busy loop).  The `NDEBUG`-guarded
`totalBytesProvidedBySBRK` update is included (debug build). -/
def sbrk_r (limit : Int) (policy : OomPolicy) (s : SbrkState) (incr : Int) :
    Option (Int × SbrkState) :=
  -- vTaskSuspendAll();
  let s1 : SbrkState := { s with suspendCount := s.suspendCount + 1 }
  if s1.currentHeapEnd + incr > limit then
    match policy with
    | OomPolicy.callFailureHook =>
        -- vApplicationMallocFailedHook(); return (char *)-1;
        -- (no errno write, no xTaskResumeAll on this path)
        some (-1, { s1 with hookCalls := s1.hookCalls + 1 })
    | OomPolicy.hardStop =>
        -- while(1) { __asm("bkpt #0"); };
        none
    | OomPolicy.defaultPolicy =>
        -- pReent->_errno = ENOMEM; xTaskResumeAll(); return (char *)-1;
        some (-1, { s1 with errno := some ENOMEM,
                            suspendCount := s1.suspendCount - 1 })
  else
    -- previousHeapEnd = currentHeapEnd; currentHeapEnd += incr;
    -- heapBytesRemaining -= incr; totalBytesProvidedBySBRK += incr;
    -- xTaskResumeAll(); return previousHeapEnd;
    some (s1.currentHeapEnd,
      { s1 with currentHeapEnd := s1.currentHeapEnd + incr
                heapBytesRemaining := s1.heapBytesRemaining - incr
                totalBytesProvidedBySBRK := s1.totalBytesProvidedBySBRK + incr
                suspendCount := s1.suspendCount - 1 })

/-- Run a sequence of `_sbrk_r` requests, collecting return values.  If a
call never returns (hard-stop spin), the run ends there with the state at
the moment of divergence and no further results. -/
def sbrkRun (limit : Int) (policy : OomPolicy) (s : SbrkState) :
    List Int → SbrkState × List Int
  | [] => (s, [])
  | incr :: rest =>
    match sbrk_r limit policy s incr with
    | none => (s, [])
    | some (r, s') =>
      let t := sbrkRun limit policy s' rest
      (t.1, r :: t.2)

/-- `__malloc_lock`: `configASSERT( !xPortIsInsideInterrupt() )` then
`vTaskSuspendAll()`.  Arguments: whether the caller runs in interrupt
context, and the current scheduler-suspension nesting depth; `none` means
the assertion fired (fatal, never returns). -/
def __malloc_lock (insideInterrupt : Bool) (suspendCount : Nat) : Option Nat :=
  if insideInterrupt then none else some (suspendCount + 1)

/-- `__malloc_unlock`: `(void)xTaskResumeAll()`. -/
def __malloc_unlock (suspendCount : Nat) : Nat := suspendCount - 1

/-- `__env_lock`: plain `vTaskSuspendAll()`, no assertion of any kind; the
interrupt-context argument is therefore never consulted. -/
def __env_lock (_insideInterrupt : Bool) (suspendCount : Nat) : Option Nat :=
  some (suspendCount + 1)

/-- `__env_unlock`: `(void)xTaskResumeAll()`. -/
def __env_unlock (suspendCount : Nat) : Nat := suspendCount - 1

/-- `xPortGetFreeHeapSize`: `mallinfo().fordblks + heapBytesRemaining`.
The `fordblks` figure is owned by newlib's allocator and passed in. -/
def xPortGetFreeHeapSize (fordblks : Int) (s : SbrkState) : Int :=
  fordblks + s.heapBytesRemaining

/-- The diagnostic globals of the `--wrap=malloc` instrumentation:
`MallocCallCnt` (an `int`, idealised), `TotalMallocdBytes` (a 32-bit
`size_t`) and the `inside_malloc` flag. -/
structure MallocStats where
  MallocCallCnt : Int
  TotalMallocdBytes : Nat
  inside_malloc : Bool
deriving DecidableEq, Repr

/-- Effect on the diagnostic globals of `__wrap__malloc_r`: counts the
request only when not nested inside `__wrap_malloc`.  `size_t` addition
wraps modulo `2 ^ 32`. -/
def __wrap__malloc_r (nbytes : Nat) (s : MallocStats) : MallocStats :=
  if !s.inside_malloc then
    { s with MallocCallCnt := s.MallocCallCnt + 1
             TotalMallocdBytes := (s.TotalMallocdBytes + nbytes) % 2 ^ 32 }
  else s

/-- Effect on the diagnostic globals of `__wrap_malloc`: counts the request,
sets `inside_malloc`, calls `__real_malloc` — which internally reaches
`_malloc_r`, redirected by the linker to `__wrap__malloc_r` — and clears
the flag. -/
def __wrap_malloc (nbytes : Nat) (s : MallocStats) : MallocStats :=
  let s1 : MallocStats :=
    { s with MallocCallCnt := s.MallocCallCnt + 1
             TotalMallocdBytes := (s.TotalMallocdBytes + nbytes) % 2 ^ 32
             inside_malloc := true }
  let s2 := __wrap__malloc_r nbytes s1
  { s2 with inside_malloc := false }

/-- The list of return values a caller sees when every request in the
sequence succeeds: the value of the Current End Pointer just before each
request (`previousHeapEnd`). -/
def expectedReturns (c : Int) : List Int → List Int
  | [] => []
  | d :: rest => c :: expectedReturns (c + d) rest

/-! ### Helper lemmas about single `_sbrk_r` steps -/

theorem sbrk_r_ok (limit : Int) (policy : OomPolicy) (s : SbrkState) (incr : Int)
    (h : s.currentHeapEnd + incr ≤ limit) :
    sbrk_r limit policy s incr =
      some (s.currentHeapEnd,
        { s with currentHeapEnd := s.currentHeapEnd + incr
                 heapBytesRemaining := s.heapBytesRemaining - incr
                 totalBytesProvidedBySBRK := s.totalBytesProvidedBySBRK + incr }) := by
  simp [sbrk_r, not_lt.mpr h]

theorem sbrk_r_fail_default_eq (limit : Int) (s : SbrkState) (incr : Int)
    (h : limit < s.currentHeapEnd + incr) :
    sbrk_r limit OomPolicy.defaultPolicy s incr =
      some (-1, { s with errno := some ENOMEM }) := by
  simp [sbrk_r, h]

theorem sbrk_r_fail_hook_eq (limit : Int) (s : SbrkState) (incr : Int)
    (h : limit < s.currentHeapEnd + incr) :
    sbrk_r limit OomPolicy.callFailureHook s incr =
      some (-1, { s with suspendCount := s.suspendCount + 1
                         hookCalls := s.hookCalls + 1 }) := by
  simp [sbrk_r, h]

/-- Case analysis for any `_sbrk_r` call that returns. -/
theorem sbrk_r_cases (limit : Int) (policy : OomPolicy) (s : SbrkState) (incr : Int)
    (r : Int) (s' : SbrkState) (hcall : sbrk_r limit policy s incr = some (r, s')) :
    (s.currentHeapEnd + incr ≤ limit ∧ r = s.currentHeapEnd ∧
      s' = { s with currentHeapEnd := s.currentHeapEnd + incr
                    heapBytesRemaining := s.heapBytesRemaining - incr
                    totalBytesProvidedBySBRK := s.totalBytesProvidedBySBRK + incr }) ∨
    (limit < s.currentHeapEnd + incr ∧ r = -1 ∧
      s'.currentHeapEnd = s.currentHeapEnd ∧
      s'.heapBytesRemaining = s.heapBytesRemaining) := by
  by_cases hc : limit < s.currentHeapEnd + incr
  · right
    refine ⟨hc, ?_⟩
    cases policy with
    | callFailureHook =>
      rw [sbrk_r_fail_hook_eq limit s incr hc] at hcall
      cases hcall
      exact ⟨rfl, rfl, rfl⟩
    | hardStop =>
      simp [sbrk_r, hc] at hcall
    | defaultPolicy =>
      rw [sbrk_r_fail_default_eq limit s incr hc] at hcall
      cases hcall
      exact ⟨rfl, rfl, rfl⟩
  · left
    have hle : s.currentHeapEnd + incr ≤ limit := not_lt.mp hc
    rw [sbrk_r_ok limit policy s incr hle] at hcall
    cases hcall
    exact ⟨hle, rfl, rfl⟩

/-! ### Helper lemmas about request sequences -/

/-- When every prefix of the request sequence fits in the region, the run is
fully successful: the accounting fields advance by the total, the scheduler
nesting, errno and hook count are untouched, and each call returns the
Current End Pointer it started from. -/
theorem sbrkRun_all_ok (limit : Int) (policy : OomPolicy) :
    ∀ (ds : List Int) (s : SbrkState),
      (∀ j, j < ds.length → s.currentHeapEnd + (ds.take (j + 1)).sum ≤ limit) →
      sbrkRun limit policy s ds =
        ({ s with currentHeapEnd := s.currentHeapEnd + ds.sum
                  heapBytesRemaining := s.heapBytesRemaining - ds.sum
                  totalBytesProvidedBySBRK := s.totalBytesProvidedBySBRK + ds.sum },
         expectedReturns s.currentHeapEnd ds) := by
  intro ds
  induction ds with
  | nil =>
    intro s _
    simp [sbrkRun, expectedReturns]
  | cons d rest ih =>
    intro s h
    have h0 : s.currentHeapEnd + d ≤ limit := by
      have := h 0 (by simp)
      simpa using this
    have hrest : ∀ j, j < rest.length →
        (s.currentHeapEnd + d) + (rest.take (j + 1)).sum ≤ limit := by
      intro j hj
      have := h (j + 1) (by simpa using Nat.succ_lt_succ hj)
      simpa [List.take_succ_cons, add_assoc] using this
    simp only [sbrkRun, sbrk_r_ok limit policy s d h0]
    rw [ih _ hrest]
    simp [expectedReturns, add_assoc, sub_sub]

/-- The redundant-counter invariant `heapBytesRemaining = limit - current_end`
is preserved by every run, for every out-of-memory policy. -/
theorem sbrkRun_inv (limit : Int) (policy : OomPolicy) :
    ∀ (ds : List Int) (s : SbrkState),
      s.heapBytesRemaining = limit - s.currentHeapEnd →
      (sbrkRun limit policy s ds).1.heapBytesRemaining =
        limit - (sbrkRun limit policy s ds).1.currentHeapEnd := by
  intro ds
  induction ds with
  | nil =>
    intro s hs
    simpa [sbrkRun] using hs
  | cons d rest ih =>
    intro s hs
    rcases hcall : sbrk_r limit policy s d with _ | ⟨r, s'⟩
    · simpa [sbrkRun, hcall] using hs
    · have hstep : s'.heapBytesRemaining = limit - s'.currentHeapEnd := by
        rcases sbrk_r_cases limit policy s d r s' hcall with
          ⟨_, _, rfl⟩ | ⟨_, _, he, hb⟩
        · simp; omega
        · rw [he, hb]; exact hs
      simpa [sbrkRun, hcall] using ih s' hstep

/-- With non-negative deltas, the Current End Pointer stays within
`[base, limit]` across any run, for every policy. -/
theorem sbrkRun_bounds (base limit : Int) (policy : OomPolicy) :
    ∀ (ds : List Int) (s : SbrkState),
      (∀ d ∈ ds, 0 ≤ d) →
      base ≤ s.currentHeapEnd → s.currentHeapEnd ≤ limit →
      base ≤ (sbrkRun limit policy s ds).1.currentHeapEnd ∧
        (sbrkRun limit policy s ds).1.currentHeapEnd ≤ limit := by
  intro ds
  induction ds with
  | nil =>
    intro s _ hb hl
    exact ⟨hb, hl⟩
  | cons d rest ih =>
    intro s hds hb hl
    have hd : 0 ≤ d := hds d (by simp)
    rcases hcall : sbrk_r limit policy s d with _ | ⟨r, s'⟩
    · simpa [sbrkRun, hcall] using ⟨hb, hl⟩
    · have hstep : base ≤ s'.currentHeapEnd ∧ s'.currentHeapEnd ≤ limit := by
        rcases sbrk_r_cases limit policy s d r s' hcall with
          ⟨hfit, _, rfl⟩ | ⟨_, _, he, _⟩
        · constructor
          · simp; omega
          · simpa using hfit
        · rw [he]; exact ⟨hb, hl⟩
      have := ih s' (fun x hx => hds x (by simp [hx])) hstep.1 hstep.2
      simpa [sbrkRun, hcall] using this

/-- For a list of non-negative integers, every initial segment sums to at
most the whole sum. -/
theorem take_sum_le_sum_of_nonneg (ds : List Int) (hds : ∀ d ∈ ds, 0 ≤ d)
    (k : Nat) : (ds.take k).sum ≤ ds.sum := by
  have hsplit : ds = ds.take k ++ ds.drop k := (List.take_append_drop k ds).symm
  have hdrop : 0 ≤ (ds.drop k).sum := by
    apply List.sum_nonneg
    intro x hx
    exact hds x (List.mem_of_mem_drop hx)
  calc (ds.take k).sum ≤ (ds.take k).sum + (ds.drop k).sum := by omega
    _ = ds.sum := by rw [hsplit]; simp [List.sum_append]

/-! ### Claim theorems -/

/-- C1: every `_sbrk_r` call with `current_end + incr <= limit` succeeds:
it returns the previous Current End Pointer, advances the Current End
Pointer by exactly `incr`, and decreases the Remaining-Capacity Counter by
exactly `incr`. -/
theorem sbrk_r_success_grants_previous_end (limit : Int) (policy : OomPolicy)
    (s : SbrkState) (incr : Int) (h : s.currentHeapEnd + incr ≤ limit) :
    ∃ s' : SbrkState,
      sbrk_r limit policy s incr = some (s.currentHeapEnd, s') ∧
      s'.currentHeapEnd = s.currentHeapEnd + incr ∧
      s'.heapBytesRemaining = s.heapBytesRemaining - incr :=
  ⟨_, sbrk_r_ok limit policy s incr h, rfl, rfl⟩

/-- Witness for C1: the spec scenario, extending by 100 in a 4096-byte
region starting at base 0. -/
theorem sbrk_r_success_grants_previous_end_witness :
    (initState 0 4096).currentHeapEnd + 100 ≤ 4096 ∧
    ∃ s' : SbrkState,
      sbrk_r 4096 OomPolicy.defaultPolicy (initState 0 4096) 100 =
        some ((initState 0 4096).currentHeapEnd, s') ∧
      s'.currentHeapEnd = (initState 0 4096).currentHeapEnd + 100 ∧
      s'.heapBytesRemaining = (initState 0 4096).heapBytesRemaining - 100 :=
  ⟨by decide,
   sbrk_r_success_grants_previous_end 4096 OomPolicy.defaultPolicy
     (initState 0 4096) 100 (by decide)⟩

/-- C2: a call with `current_end + incr > limit` (default policy) fails with
the sentinel `-1` and mutates neither the Current End Pointer nor the
Remaining-Capacity Counter; and for any request sequence whose prefix sum
first exceeds the region size at request `k`, the first `k - 1` requests
all succeed (each returning its previous Current End Pointer) and request
`k` fails leaving the Current End Pointer where it was. -/
theorem sbrk_r_failure_and_first_overflow :
    (∀ (limit : Int) (s : SbrkState) (incr : Int),
        limit < s.currentHeapEnd + incr →
        ∃ s' : SbrkState,
          sbrk_r limit OomPolicy.defaultPolicy s incr = some (-1, s') ∧
          s'.currentHeapEnd = s.currentHeapEnd ∧
          s'.heapBytesRemaining = s.heapBytesRemaining) ∧
    (∀ (base limit : Int) (pre : List Int) (dk : Int),
        (∀ j, j < pre.length → base + (pre.take (j + 1)).sum ≤ limit) →
        limit < base + pre.sum + dk →
        (sbrkRun limit OomPolicy.defaultPolicy (initState base limit) pre).2 =
          expectedReturns base pre ∧
        (sbrkRun limit OomPolicy.defaultPolicy (initState base limit) pre).1.currentHeapEnd =
          base + pre.sum ∧
        ∃ s' : SbrkState,
          sbrk_r limit OomPolicy.defaultPolicy
              (sbrkRun limit OomPolicy.defaultPolicy (initState base limit) pre).1 dk =
            some (-1, s') ∧
          s'.currentHeapEnd = base + pre.sum) := by
  constructor
  · intro limit s incr h
    exact ⟨_, sbrk_r_fail_default_eq limit s incr h, rfl, rfl⟩
  · intro base limit pre dk hpre hover
    have hrun := sbrkRun_all_ok limit OomPolicy.defaultPolicy pre (initState base limit)
      (by simpa [initState] using hpre)
    rw [hrun]
    refine ⟨rfl, rfl, ?_⟩
    exact ⟨_, sbrk_r_fail_default_eq limit _ dk (by simpa [initState] using hover), rfl⟩

/-- Witness for C2: the spec scenario, base 0, limit 4096, one successful
request of 100 bytes followed by a failing request of 4000 bytes. -/
theorem sbrk_r_failure_and_first_overflow_witness :
    (∃ s' : SbrkState,
      sbrk_r 4096 OomPolicy.defaultPolicy (initState 0 4096) 4097 = some (-1, s') ∧
      s'.currentHeapEnd = (initState 0 4096).currentHeapEnd ∧
      s'.heapBytesRemaining = (initState 0 4096).heapBytesRemaining) ∧
    ((sbrkRun 4096 OomPolicy.defaultPolicy (initState 0 4096) [100]).2 =
        expectedReturns 0 [100] ∧
      (sbrkRun 4096 OomPolicy.defaultPolicy (initState 0 4096) [100]).1.currentHeapEnd =
        0 + [(100 : Int)].sum ∧
      ∃ s' : SbrkState,
        sbrk_r 4096 OomPolicy.defaultPolicy
            (sbrkRun 4096 OomPolicy.defaultPolicy (initState 0 4096) [100]).1 4000 =
          some (-1, s') ∧
        s'.currentHeapEnd = 0 + [(100 : Int)].sum) :=
  ⟨sbrk_r_failure_and_first_overflow.1 4096 (initState 0 4096) 4097 (by decide),
   sbrk_r_failure_and_first_overflow.2 0 4096 [100] 4000
     (by
       intro j hj
       have hj0 : j = 0 := Nat.lt_one_iff.mp (by simpa using hj)
       subst hj0
       decide)
     (by decide)⟩

/-- C3: starting from the initial state, after every request sequence (under
every out-of-memory policy) the Remaining-Capacity Counter equals
`limit - current_end`. -/
theorem heapBytesRemaining_equals_limit_sub_end (base limit : Int)
    (policy : OomPolicy) (ds : List Int) :
    (sbrkRun limit policy (initState base limit) ds).1.heapBytesRemaining =
      limit - (sbrkRun limit policy (initState base limit) ds).1.currentHeapEnd :=
  sbrkRun_inv limit policy ds (initState base limit) (by simp [initState])

/-- C4 (code bug): in the `configUSE_MALLOC_FAILED_HOOK == 1` build, a
failing call invokes the hook and returns the sentinel, but — unlike the
default policy — it neither sets `errno` to `ENOMEM` nor calls
`xTaskResumeAll`: after filling a 4096-byte region and then requesting one
more byte, the scheduler-suspension nesting is left at 1 and errno is
untouched. -/
theorem sbrk_r_hook_skips_errno_and_resume :
    sbrkRun 4096 OomPolicy.callFailureHook (initState 0 4096) [4096, 1] =
      ({ currentHeapEnd := 4096, heapBytesRemaining := 0,
         totalBytesProvidedBySBRK := 4096, suspendCount := 1,
         errno := none, hookCalls := 1 },
       [0, -1]) := by decide

/-- C5 counterexample: `_sbrk_r` accepts a negative delta, so from
`base = 0`, `limit = 100` a single request of `-1` succeeds and drives the
Current End Pointer below the base, falsifying `base <= current_end` for
arbitrary integer deltas. -/
theorem heap_end_below_base_on_negative_delta :
    (sbrkRun 100 OomPolicy.defaultPolicy (initState 0 100) [-1]).1.currentHeapEnd = -1 ∧
    ¬ (0 ≤ (sbrkRun 100 OomPolicy.defaultPolicy
        (initState 0 100) [-1]).1.currentHeapEnd) := by decide

/-- C5 (amended): with `base <= limit` and non-negative deltas, after every
request sequence (under every policy) the Current End Pointer satisfies
`base <= current_end <= limit`; the upper bound needs no sign restriction,
but the lower bound does. -/
theorem heap_end_bounds_nonneg_deltas (base limit : Int) (policy : OomPolicy)
    (ds : List Int) (hbl : base ≤ limit) (hds : ∀ d ∈ ds, 0 ≤ d) :
    base ≤ (sbrkRun limit policy (initState base limit) ds).1.currentHeapEnd ∧
    (sbrkRun limit policy (initState base limit) ds).1.currentHeapEnd ≤ limit :=
  sbrkRun_bounds base limit policy ds (initState base limit) hds le_rfl hbl

/-- Witness for amended C5: the spec scenario sequence in a 4096-byte
region. -/
theorem heap_end_bounds_nonneg_deltas_witness :
    (0 : Int) ≤ 4096 ∧ (∀ d ∈ [(100 : Int), 4000, 3996, 1], 0 ≤ d) ∧
    ((0 : Int) ≤ (sbrkRun 4096 OomPolicy.defaultPolicy
        (initState 0 4096) [100, 4000, 3996, 1]).1.currentHeapEnd ∧
      (sbrkRun 4096 OomPolicy.defaultPolicy
        (initState 0 4096) [100, 4000, 3996, 1]).1.currentHeapEnd ≤ 4096) :=
  ⟨by decide, by decide,
   heap_end_bounds_nonneg_deltas 0 4096 OomPolicy.defaultPolicy
     [100, 4000, 3996, 1] (by decide) (by decide)⟩

/-- C6 counterexample: a single call with the negative delta `-3` (accepted
by the `int incr` signature) succeeds and shrinks the Current End Pointer
from 5 to 2, falsifying monotonicity over all signature-accepted deltas. -/
theorem heap_end_decreases_on_negative_delta :
    (sbrk_r 100 OomPolicy.defaultPolicy (initState 5 100) (-3)).map
        (fun p => p.2.currentHeapEnd) = some 2 ∧
    (initState 5 100).currentHeapEnd = 5 ∧ (2 : Int) < 5 := by decide

/-- C6 (amended): for non-negative deltas the Current End Pointer is
monotonically non-decreasing: no returning `_sbrk_r` call, under any
policy, leaves it smaller than before the call. -/
theorem heap_end_monotone_nonneg (limit : Int) (policy : OomPolicy)
    (s : SbrkState) (incr : Int) (hincr : 0 ≤ incr) (r : Int) (s' : SbrkState)
    (hcall : sbrk_r limit policy s incr = some (r, s')) :
    s.currentHeapEnd ≤ s'.currentHeapEnd := by
  rcases sbrk_r_cases limit policy s incr r s' hcall with
    ⟨_, _, rfl⟩ | ⟨_, _, he, _⟩
  · simp; omega
  · rw [he]

/-- Witness for amended C6: extending by 5 from the initial state of a
100-byte region does not decrease the Current End Pointer. -/
theorem heap_end_monotone_nonneg_witness :
    (0 : Int) ≤ 5 ∧
    (initState 0 100).currentHeapEnd ≤
      ({ currentHeapEnd := 5, heapBytesRemaining := 95,
         totalBytesProvidedBySBRK := 5, suspendCount := 0,
         errno := none, hookCalls := 0 } : SbrkState).currentHeapEnd :=
  ⟨by decide,
   heap_end_monotone_nonneg 100 OomPolicy.defaultPolicy (initState 0 100) 5
     (by decide) 0
     { currentHeapEnd := 5, heapBytesRemaining := 95,
       totalBytesProvidedBySBRK := 5, suspendCount := 0,
       errno := none, hookCalls := 0 }
     (by decide)⟩

/-- C7 counterexample: `__env_lock` performs no interrupt-context check, so
calling it from interrupt context silently succeeds (suspends the
scheduler) instead of triggering an assertion failure. -/
theorem env_lock_in_interrupt_silently_succeeds :
    __env_lock true 0 = some 1 ∧ __env_lock true 0 ≠ none := by decide

/-- C7 (amended): only the allocator lock guards against interrupt context:
`__malloc_lock` from interrupt context hits `configASSERT` and never
returns, while `__env_lock` suspends the scheduler unconditionally. -/
theorem malloc_lock_asserts_env_lock_does_not (n : Nat) :
    __malloc_lock true n = none ∧
    __malloc_lock false n = some (n + 1) ∧
    __env_lock true n = some (n + 1) := by
  simp [__malloc_lock, __env_lock]

/-- C8: any sequence of non-negative deltas whose sum fits in the region
succeeds entirely: each request returns its previous Current End Pointer,
no errno is ever set, and the final Current End Pointer is
`base + sum(di)`. -/
theorem all_requests_succeed_when_sum_fits (base limit : Int)
    (policy : OomPolicy) (ds : List Int) (hds : ∀ d ∈ ds, 0 ≤ d)
    (hsum : ds.sum ≤ limit - base) :
    (sbrkRun limit policy (initState base limit) ds).2 = expectedReturns base ds ∧
    (sbrkRun limit policy (initState base limit) ds).1.currentHeapEnd =
      base + ds.sum ∧
    (sbrkRun limit policy (initState base limit) ds).1.errno = none := by
  have hfit : ∀ j, j < ds.length →
      (initState base limit).currentHeapEnd + (ds.take (j + 1)).sum ≤ limit := by
    intro j _
    have := take_sum_le_sum_of_nonneg ds hds (j + 1)
    simp only [initState]
    omega
  rw [sbrkRun_all_ok limit policy ds (initState base limit) hfit]
  exact ⟨rfl, rfl, rfl⟩

/-- Witness for C8: requests 100 + 4000 fit in an 8192-byte region and end
at 4100. -/
theorem all_requests_succeed_when_sum_fits_witness :
    (∀ d ∈ [(100 : Int), 4000], 0 ≤ d) ∧
    [(100 : Int), 4000].sum ≤ 8192 - 0 ∧
    ((sbrkRun 8192 OomPolicy.defaultPolicy (initState 0 8192) [100, 4000]).2 =
        expectedReturns 0 [100, 4000] ∧
      (sbrkRun 8192 OomPolicy.defaultPolicy
        (initState 0 8192) [100, 4000]).1.currentHeapEnd =
          0 + [(100 : Int), 4000].sum ∧
      (sbrkRun 8192 OomPolicy.defaultPolicy
        (initState 0 8192) [100, 4000]).1.errno = none) :=
  ⟨by decide, by decide,
   all_requests_succeed_when_sum_fits 0 8192 OomPolicy.defaultPolicy
     [100, 4000] (by decide) (by decide)⟩

/-- C9: `xPortGetFreeHeapSize` returns newlib's reported free-block total
(`mallinfo().fordblks`) plus the Remaining-Capacity Counter; with
`fordblks` held fixed, a successful extension by `d` makes the query result
exactly `d` smaller than before. -/
theorem free_heap_size_decreases_by_extension (fordblks limit d : Int)
    (policy : OomPolicy) (s : SbrkState) (h : s.currentHeapEnd + d ≤ limit) :
    xPortGetFreeHeapSize fordblks s = fordblks + s.heapBytesRemaining ∧
    ∀ (r : Int) (s' : SbrkState), sbrk_r limit policy s d = some (r, s') →
      xPortGetFreeHeapSize fordblks s' = xPortGetFreeHeapSize fordblks s - d := by
  refine ⟨rfl, ?_⟩
  intro r s' hcall
  rw [sbrk_r_ok limit policy s d h] at hcall
  cases hcall
  simp [xPortGetFreeHeapSize]
  ring

/-- Witness for C9: with `fordblks = 50`, extending a 4096-byte region by
100 drops the free-space query from 4146 to 4046. -/
theorem free_heap_size_decreases_by_extension_witness :
    (initState 0 4096).currentHeapEnd + 100 ≤ 4096 ∧
    (xPortGetFreeHeapSize 50 (initState 0 4096) =
        50 + (initState 0 4096).heapBytesRemaining ∧
      ∀ (r : Int) (s' : SbrkState),
        sbrk_r 4096 OomPolicy.defaultPolicy (initState 0 4096) 100 = some (r, s') →
        xPortGetFreeHeapSize 50 s' =
          xPortGetFreeHeapSize 50 (initState 0 4096) - 100) :=
  ⟨by decide,
   free_heap_size_decreases_by_extension 50 4096 100 OomPolicy.defaultPolicy
     (initState 0 4096) (by decide)⟩

/-- C10: absent `size_t` wraparound, `__wrap_malloc n` increments
`MallocCallCnt` by exactly 1 and `TotalMallocdBytes` by exactly `n` — the
nested `__wrap__malloc_r` reached through `__real_malloc` is suppressed by
the `inside_malloc` flag — and a `__wrap__malloc_r` call that is not nested
inside `__wrap_malloc` also counts exactly once. -/
theorem malloc_wrappers_count_each_request_once (n : Nat) (s : MallocStats)
    (hov : s.TotalMallocdBytes + n < 2 ^ 32) :
    ((__wrap_malloc n s).MallocCallCnt = s.MallocCallCnt + 1 ∧
      (__wrap_malloc n s).TotalMallocdBytes = s.TotalMallocdBytes + n ∧
      (__wrap_malloc n s).inside_malloc = false) ∧
    (s.inside_malloc = false →
      (__wrap__malloc_r n s).MallocCallCnt = s.MallocCallCnt + 1 ∧
      (__wrap__malloc_r n s).TotalMallocdBytes = s.TotalMallocdBytes + n) := by
  have hmod : (s.TotalMallocdBytes + n) % 2 ^ 32 = s.TotalMallocdBytes + n :=
    Nat.mod_eq_of_lt hov
  constructor
  · refine ⟨?_, ?_, ?_⟩ <;>
      simp only [__wrap_malloc, __wrap__malloc_r, Bool.not_true, Bool.false_eq_true,
        if_false, hmod]
  · intro him
    refine ⟨?_, ?_⟩ <;>
      simp only [__wrap__malloc_r, him, Bool.not_false, if_true, hmod]

/-- Witness for C10: a fresh stats record and an 8-byte request. -/
theorem malloc_wrappers_count_each_request_once_witness :
    (0 : Nat) + 8 < 2 ^ 32 ∧
    (((__wrap_malloc 8 ⟨0, 0, false⟩).MallocCallCnt = (0 : Int) + 1 ∧
        (__wrap_malloc 8 ⟨0, 0, false⟩).TotalMallocdBytes = (0 : Nat) + 8 ∧
        (__wrap_malloc 8 ⟨0, 0, false⟩).inside_malloc = false) ∧
      ((false = false) →
        (__wrap__malloc_r 8 ⟨0, 0, false⟩).MallocCallCnt = (0 : Int) + 1 ∧
        (__wrap__malloc_r 8 ⟨0, 0, false⟩).TotalMallocdBytes = (0 : Nat) + 8)) :=
  ⟨by decide, malloc_wrappers_count_each_request_once 8 ⟨0, 0, false⟩ (by decide)⟩

end HeapNewlib
